import Mathlib

/-!
Verification of the streamtest Guacamole client plugin (src/client.c,
src/client.h).

The C sources are shallowly embedded.  A file descriptor is modelled by an
explicit byte list (`data`) together with the kernel file offset carried in
the playback state; the nondeterminism of POSIX `read` is captured by an
`oracle : Nat → Option Nat` bounding how many bytes the i-th underlying read
call yields (`none` models a failing read, i.e. a C return of -1 with errno
set); every protocol instruction emitted over the guac socket is recorded in
a `GuacInstr` list.  Machine integers are modelled by `Nat`/`Int`; the one
place the C code relies on 32-bit truncation (the cast in
`streamtest_utime`) wraps explicitly modulo 2^32.  Integer division by zero,
which is undefined behaviour in C, is modelled by an `Option` result.
-/

/-- `STREAMTEST_PROGRESS_WIDTH` from client.h: width of the progress bar in
pixels. -/
def STREAMTEST_PROGRESS_WIDTH : Nat := 640

/-- `STREAMTEST_PROGRESS_HEIGHT` from client.h: height of the progress bar in
pixels. -/
def STREAMTEST_PROGRESS_HEIGHT : Nat := 32

/-- `streamtest_playback_mode` from client.h.  It is declared in the header
but never read nor written by client.c. -/
inductive streamtest_playback_mode where
  | STREAMTEST_AUDIO : streamtest_playback_mode
  | STREAMTEST_VIDEO : streamtest_playback_mode
deriving DecidableEq, Repr

/-- `streamtest_state` from client.h.  `fd_pos` models the kernel file offset
of the open descriptor `fd`; the `frame_buffer` pointer is not modelled
explicitly (its contents are exactly the bytes returned by the reads), and the
`guac_stream*` handle is an opaque token that no claim observes. -/
structure streamtest_state where
  mode : streamtest_playback_mode
  frame_duration : Nat
  frame_bytes : Nat
  fd_pos : Nat
  file_size : Nat
  paused : Bool
deriving DecidableEq, Repr

/-- One guacamole protocol instruction sent over the socket, as emitted by
client.c: `rect`/`cfill` drawing operations, a `blob` carrying
`size` bytes taken from offset `off` of the frame buffer, the initial
`audio` stream instruction, and the display `size` instruction. -/
inductive GuacInstr where
  | rect (x y w h : Nat) : GuacInstr
  | cfill (r g b a : Nat) : GuacInstr
  | blob (off size : Nat) : GuacInstr
  | audio : GuacInstr
  | dispsize (w h : Nat) : GuacInstr
deriving DecidableEq, Repr

/-- `streamtest_client_key_handler` (client.c lines 106-119): toggles
`state->paused` when space (keysym 0x20) is pressed; always returns 0.  The
result pairs the updated state with the C return value. -/
def streamtest_client_key_handler (s : streamtest_state) (keysym pressed : Int) :
    streamtest_state × Int :=
  (if pressed ≠ 0 ∧ keysym = 0x20 then { s with paused := !s.paused } else s, 0)

/-- `streamtest_write_blobs` (client.c lines 169-189): splits `length` bytes
starting at buffer offset `offset` into successive blob instructions of at
most 6048 bytes each.  The returned list records, in emission order, the
buffer offset and size of each blob sent via `guac_protocol_send_blob`.  The
C loop runs while `length > 0`; a non-positive `length` emits nothing. -/
def streamtest_write_blobs (offset length : Nat) : List (Nat × Nat) :=
  if _h : length = 0 then []
  else
    (offset, if 6048 < length then 6048 else length) ::
      streamtest_write_blobs (offset + (if 6048 < length then 6048 else length))
        (length - (if 6048 < length then 6048 else length))
termination_by length
decreasing_by
  simp_wf
  split <;> omega

/-- `streamtest_fill_buffer` (client.c lines 212-239): repeatedly calls
`read` until the requested `length` is filled, end-of-file is reached, or a
read fails.  `data` is the file's content and `pos` the current file offset;
`oracle i` bounds how many bytes the i-th `read` call of this invocation
yields (POSIX allows any count between 1 and the requested length while data
remains; `none` models a read returning -1).  The first component is `none`
when the C function returns -1, otherwise `some bytes` with the bytes read
(the C return value is their count); the second component is the file offset
after the call. -/
def streamtest_fill_buffer (oracle : Nat → Option Nat) (i : Nat) (data : List Nat)
    (pos length : Nat) : Option (List Nat) × Nat :=
  if _h : length = 0 then
    (some [], pos)
  else if _h2 : data.length ≤ pos then
    (some [], pos)
  else
    match oracle i with
    | none => (none, pos)
    | some k =>
      match streamtest_fill_buffer oracle (i + 1) data
          (pos + min (min length (data.length - pos)) (k + 1))
          (length - min (min length (data.length - pos)) (k + 1)) with
      | (none, p) => (none, p)
      | (some rest, p) =>
          (some ((data.drop pos).take (min (min length (data.length - pos)) (k + 1)) ++ rest), p)
termination_by length
decreasing_by
  simp_wf
  omega

/-- The conversion performed by the C cast `(int)` applied to a non-negative
64-bit value: truncation to 32 bits, reinterpreted as a signed two's
complement integer (the behaviour of the compilers this plugin targets). -/
def c_int_of_long (n : Nat) : Int :=
  if n % 4294967296 < 2147483648 then ((n % 4294967296 : Nat) : Int)
  else ((n % 4294967296 : Nat) : Int) - 4294967296

/-- `streamtest_utime` (client.c lines 249-259): reads `CLOCK_REALTIME` into
`tv_sec`/`tv_nsec` and returns `(int) (tv_sec * 1000000 + tv_nsec / 1000)`.
The clock reading is the function's input here; the arithmetic is performed
in 64-bit `time_t`/`long` (which cannot overflow for realistic times) and
then cast to a 32-bit `int`. -/
def streamtest_utime (tv_sec tv_nsec : Nat) : Int :=
  c_int_of_long (tv_sec * 1000000 + tv_nsec / 1000)

/-- The progress fill width computed at client.c line 319:
`(position+1) / ((state->file_size+1) / STREAMTEST_PROGRESS_WIDTH)` with C
truncating integer division.  When `(file_size+1) / 640 = 0` (every file
smaller than 639 bytes) the C expression divides by zero, which is undefined
behaviour; that case is modelled as `none`. -/
def streamtest_progress_width (position file_size : Nat) : Option Nat :=
  if (file_size + 1) / STREAMTEST_PROGRESS_WIDTH = 0 then none
  else some ((position + 1) / ((file_size + 1) / STREAMTEST_PROGRESS_WIDTH))

/-- Modelled from the spec (§4.4 ProgressRenderer), for comparison with the
code: a fill rectangle `(bytes_consumed+1)*WIDTH/(total_bytes+1)` pixels
wide, clamped to `WIDTH`. -/
def spec_progress_fill_width (bytes_consumed total_bytes : Nat) : Nat :=
  min ((bytes_consumed + 1) * STREAMTEST_PROGRESS_WIDTH / (total_bytes + 1))
    STREAMTEST_PROGRESS_WIDTH

/-- `streamtest_render_progress` (client.c lines 287-331): emits the
background rectangle with a grey fill, then the progress rectangle whose
width is `streamtest_progress_width`, filled amber (0x80,0x80,0x00) when
paused and green (0x00,0x80,0x00) otherwise.  `position` is the offset
obtained via `lseek(fd, 0, SEEK_CUR)`, which for the regular file opened at
init is the current offset and does not fail; the division-by-zero case of
the width computation is propagated as `none`. -/
def streamtest_render_progress (position file_size : Nat) (paused : Bool) :
    Option (List GuacInstr) :=
  match streamtest_progress_width position file_size with
  | none => none
  | some w =>
      some [GuacInstr.rect 0 0 STREAMTEST_PROGRESS_WIDTH STREAMTEST_PROGRESS_HEIGHT,
            GuacInstr.cfill 0x40 0x40 0x40 0xFF,
            GuacInstr.rect 0 0 w STREAMTEST_PROGRESS_HEIGHT,
            if paused then GuacInstr.cfill 0x80 0x80 0x00 0xFF
            else GuacInstr.cfill 0x00 0x80 0x00 0xFF]

/-- The observable outcome of one invocation of the message handler:
the playback state afterwards, the instructions emitted over the socket in
order, whether `guac_client_stop` was called, the number of microseconds
passed to `streamtest_usleep` (0 when no sleep happens), and the C return
value. -/
structure TickResult where
  state : streamtest_state
  instrs : List GuacInstr
  stopped : Bool
  sleep_usecs : Nat
  ret : Int
deriving DecidableEq, Repr

/-- `streamtest_client_message_handler` (client.c lines 343-400): one tick.
If not paused, fill the frame buffer (up to `frame_bytes` bytes) from the
file; a failing read logs and returns 1 immediately (no render, no sleep); a
positive read emits the bytes as blobs; a zero read (EOF) calls
`guac_client_stop`.  The progress bar is then re-rendered and the handler
sleeps for the remainder of the frame budget — `elapsed` stands for the
difference of the two `streamtest_utime` calls around the work; if the frame
overran, only a debug diagnostic is logged.  Returns 0 on success.  `none`
models the undefined division by zero inside the progress render. -/
def streamtest_client_message_handler (oracle : Nat → Option Nat) (data : List Nat)
    (elapsed : Nat) (s : streamtest_state) : Option TickResult :=
  if s.paused then
    match streamtest_render_progress s.fd_pos s.file_size s.paused with
    | none => none
    | some rinstrs =>
        some ⟨s, rinstrs, false,
          if elapsed < s.frame_duration then s.frame_duration - elapsed else 0, 0⟩
  else
    match streamtest_fill_buffer oracle 0 data s.fd_pos s.frame_bytes with
    | (none, p) => some ⟨{ s with fd_pos := p }, [], false, 0, 1⟩
    | (some bytes, p) =>
      match streamtest_render_progress p s.file_size s.paused with
      | none => none
      | some rinstrs =>
          some ⟨{ s with fd_pos := p },
            (if 0 < bytes.length then
              (streamtest_write_blobs 0 bytes.length).map (fun c => GuacInstr.blob c.1 c.2)
            else []) ++ rinstrs,
            bytes.isEmpty,
            if elapsed < s.frame_duration then s.frame_duration - elapsed else 0, 0⟩

/-- The observable outcome of `guac_client_init`: the C return value, which
resources were allocated / handlers registered by the time it returned, and
the instructions emitted over the socket. -/
structure InitResult where
  ret : Int
  stream_allocated : Bool
  state_allocated : Bool
  buffer_allocated : Bool
  handlers_registered : Bool
  instrs : List GuacInstr
deriving DecidableEq, Repr

/-- `guac_client_init` (client.c lines 444-538).  `argc` is the handshake
argument count (STREAMTEST_ARGS_COUNT = 4); `mimetype` the characters of
argv[IDX_MIMETYPE]; `open_ok` whether `open(argv[IDX_FILENAME], O_RDONLY)`
succeeds; `fstat_size` the `st_size` obtained by `streamtest_get_file_size`
(`none` when `fstat` fails).  The mimetype test is
`strncmp(argv[IDX_MIMETYPE], "audio/", 6) == 0`; the `video/` branch is
compiled out (`#if 0`).  Note the stream is allocated by
`guac_client_alloc_stream` *before* the mimetype check.  The final progress
render (position 0) can divide by zero, modelled as `none`. -/
def guac_client_init (argc : Nat) (mimetype : List Char) (open_ok : Bool)
    (fstat_size : Option Nat) : Option InitResult :=
  if argc ≠ 4 then some ⟨1, false, false, false, false, []⟩
  else if mimetype.take 6 = ['a', 'u', 'd', 'i', 'o', '/'] then
    if open_ok then
      match fstat_size with
      | some file_size =>
          match streamtest_render_progress 0 file_size false with
          | none => none
          | some rinstrs =>
              some ⟨0, true, true, true, true,
                GuacInstr.audio ::
                  GuacInstr.dispsize STREAMTEST_PROGRESS_WIDTH STREAMTEST_PROGRESS_HEIGHT ::
                    rinstrs⟩
      | none => some ⟨1, true, false, false, false, [GuacInstr.audio]⟩
    else some ⟨1, true, false, false, false, [GuacInstr.audio]⟩
  else some ⟨1, true, false, false, false, []⟩

def blobsChainFrom : Nat → List (Nat × Nat) → Prop
  | _, [] => True
  | off, c :: rest => c.1 = off ∧ blobsChainFrom (off + c.2) rest

/-- Unfolding equation for `blobsChainFrom` on a cons cell. -/
theorem blobsChainFrom_cons (off : Nat) (c : Nat × Nat) (rest : List (Nat × Nat)) :
    blobsChainFrom off (c :: rest) = (c.1 = off ∧ blobsChainFrom (off + c.2) rest) := by
  rw [blobsChainFrom]

/-- Core characterisation of `streamtest_fill_buffer`: whenever no read
fails, the call returns exactly the slice of `length` file bytes starting at
`pos` (truncated at end-of-file) and advances the offset by the number of
bytes read — for every partial-read behaviour of the underlying medium. -/
theorem streamtest_fill_buffer_eq_slice (oracle : Nat → Option Nat)
    (hok : ∀ j, oracle j ≠ none) (length : Nat) :
    ∀ (i pos : Nat) (data : List Nat),
      streamtest_fill_buffer oracle i data pos length =
        (some ((data.drop pos).take length), pos + min length (data.length - pos)) := by
  induction length using Nat.strong_induction_on with
  | _ length ih =>
    intro i pos data
    unfold streamtest_fill_buffer
    by_cases h0 : length = 0
    · subst h0; simp
    rw [dif_neg h0]
    by_cases h2 : data.length ≤ pos
    · rw [dif_pos h2]
      simp [List.drop_eq_nil_of_le h2, Nat.sub_eq_zero_of_le h2, h0]
    rw [dif_neg h2]
    cases hk : oracle i with
    | none => exact absurd hk (hok i)
    | some k =>
      dsimp only
      have hr1 : 1 ≤ min (min length (data.length - pos)) (k + 1) := by omega
      have hrl : min (min length (data.length - pos)) (k + 1) ≤ length := by omega
      have hrd : min (min length (data.length - pos)) (k + 1) ≤ data.length - pos := by omega
      rw [ih (length - min (min length (data.length - pos)) (k + 1)) (by omega) (i + 1)
        (pos + min (min length (data.length - pos)) (k + 1)) data]
      dsimp only
      refine Prod.ext ?_ ?_
      · dsimp only
        congr 1
        have hsplit : length = min (min length (data.length - pos)) (k + 1) +
            (length - min (min length (data.length - pos)) (k + 1)) := by omega
        conv_rhs => rw [hsplit]
        rw [List.take_add]
        congr 1
        rw [List.drop_drop]
      · dsimp only
        omega

/-- When a read fails immediately (`read` returns -1), `streamtest_fill_buffer`
returns the error marker and the offset is unchanged. -/
theorem streamtest_fill_buffer_first_read_fails (oracle : Nat → Option Nat)
    (data : List Nat) (i pos n : Nat) (h : oracle i = none) (hn : n ≠ 0)
    (hp : pos < data.length) :
    streamtest_fill_buffer oracle i data pos n = (none, pos) := by
  unfold streamtest_fill_buffer
  rw [dif_neg hn, dif_neg (not_le.mpr hp), h]

/-- For files of at least 639 bytes the progress divisor is non-zero and the
render emits exactly background rect, grey fill, progress rect of width
`(position+1) / ((file_size+1) / 640)`, and the pause-dependent colour. -/
theorem streamtest_render_progress_of_le (position file_size : Nat) (paused : Bool)
    (h : 639 ≤ file_size) :
    streamtest_render_progress position file_size paused =
      some [GuacInstr.rect 0 0 STREAMTEST_PROGRESS_WIDTH STREAMTEST_PROGRESS_HEIGHT,
            GuacInstr.cfill 0x40 0x40 0x40 0xFF,
            GuacInstr.rect 0 0 ((position + 1) / ((file_size + 1) / STREAMTEST_PROGRESS_WIDTH))
              STREAMTEST_PROGRESS_HEIGHT,
            if paused then GuacInstr.cfill 0x80 0x80 0x00 0xFF
            else GuacInstr.cfill 0x00 0x80 0x00 0xFF] := by
  have hq : (file_size + 1) / STREAMTEST_PROGRESS_WIDTH ≠ 0 := by
    simp only [STREAMTEST_PROGRESS_WIDTH]
    omega
  unfold streamtest_render_progress streamtest_progress_width
  rw [if_neg hq]

/-- Full characterisation of `streamtest_write_blobs` from an arbitrary
starting offset: chunk count, size sum, size bounds, and contiguous coverage. -/
theorem streamtest_write_blobs_spec (length : Nat) :
    ∀ offset : Nat,
      (streamtest_write_blobs offset length).length = (length + 6047) / 6048 ∧
      ((streamtest_write_blobs offset length).map Prod.snd).sum = length ∧
      (∀ c ∈ streamtest_write_blobs offset length, 0 < c.2 ∧ c.2 ≤ 6048) ∧
      blobsChainFrom offset (streamtest_write_blobs offset length) := by
  induction length using Nat.strong_induction_on with
  | _ length ih =>
    intro offset
    by_cases h0 : length = 0
    · subst h0
      simp [streamtest_write_blobs, blobsChainFrom]
    unfold streamtest_write_blobs
    rw [dif_neg h0]
    by_cases hbig : 6048 < length
    · simp only [if_pos hbig]
      obtain ⟨hlen, hsum, hmem, hchain⟩ := ih (length - 6048) (by omega) (offset + 6048)
      refine ⟨?_, ?_, ?_, ?_⟩
      · rw [List.length_cons, hlen]; omega
      · rw [List.map_cons, List.sum_cons, hsum]; omega
      · intro c hc
        rcases List.mem_cons.mp hc with rfl | hc
        · exact ⟨by omega, by omega⟩
        · exact hmem c hc
      · rw [blobsChainFrom_cons]
        exact ⟨rfl, hchain⟩
    · rw [if_neg hbig]
      have hz : streamtest_write_blobs (offset + length) (length - length) = [] := by
        rw [Nat.sub_self, streamtest_write_blobs]
        rfl
      rw [hz]
      refine ⟨by rw [List.length_singleton]; omega,
        by rw [List.map_singleton, List.sum_singleton], ?_, ⟨rfl, trivial⟩⟩
      intro c hc
      rcases List.mem_cons.mp hc with rfl | hc
      · exact ⟨by omega, by omega⟩
      · exact absurd hc (List.not_mem_nil c)

/-- Claim C4: for every buffer and every non-negative length,
`streamtest_write_blobs` emits exactly `⌈length / 6048⌉` blob writes whose
sizes sum exactly to `length`, each blob at most 6048 bytes, covering
consecutive ranges of the buffer in ascending offset order with no gaps or
overlaps (`blobsChainFrom 0`). -/
theorem streamtest_write_blobs_chunking (length : Nat) :
    (streamtest_write_blobs 0 length).length = (length + 6047) / 6048 ∧
    ((streamtest_write_blobs 0 length).map Prod.snd).sum = length ∧
    (∀ c ∈ streamtest_write_blobs 0 length, 0 < c.2 ∧ c.2 ≤ 6048) ∧
    blobsChainFrom 0 (streamtest_write_blobs 0 length) :=
  streamtest_write_blobs_spec length 0

/-- Witness instantiation for claim C4 at length 10000: two blobs
(6048 + 3952) summing to 10000. -/
theorem streamtest_write_blobs_chunking_witness :
    (streamtest_write_blobs 0 10000).length = 2 ∧
    ((streamtest_write_blobs 0 10000).map Prod.snd).sum = 10000 :=
  ⟨by rw [(streamtest_write_blobs_chunking 10000).1], (streamtest_write_blobs_chunking 10000).2.1⟩

/-- Concatenating the slice read by one call with the slice starting at the
updated offset yields one contiguous slice: no byte duplicated, dropped or
reordered across successive calls. -/
theorem take_slice_concat (data : List Nat) (pos n m : Nat) :
    (data.drop pos).take n ++ (data.drop (pos + min n (data.length - pos))).take m =
      (data.drop pos).take (min n (data.length - pos) + m) := by
  have hlen : (data.drop pos).length = data.length - pos := List.length_drop pos data
  rw [List.take_add]
  congr 1
  · by_cases h : n ≤ data.length - pos
    · rw [Nat.min_eq_left h]
    · rw [Nat.min_eq_right (by omega), ← hlen, List.take_length,
        List.take_of_length_le (by omega)]
  · rw [List.drop_drop]

/-- Claim C3: for every fd positioned `L = data.length - pos` bytes before
end-of-data and every requested length `n > 0`, `streamtest_fill_buffer`
returns exactly `min n L` bytes — the contiguous slice starting at `pos` —
never a short read except at end-of-file; it returns 0 bytes when no data
remains; it returns the error marker (C -1, errno set by the failing `read`)
when a read fails; and concatenating the slices of successive calls
reproduces the source bytes in order with none duplicated, dropped or
reordered. -/
theorem streamtest_fill_buffer_no_short_reads (oracle : Nat → Option Nat) (data : List Nat)
    (i pos n : Nat) (hn : 0 < n) (hok : ∀ j, oracle j ≠ none) :
    streamtest_fill_buffer oracle i data pos n =
      (some ((data.drop pos).take n), pos + min n (data.length - pos)) ∧
    ((data.drop pos).take n).length = min n (data.length - pos) ∧
    (data.length ≤ pos → streamtest_fill_buffer oracle i data pos n = (some [], pos)) ∧
    (∀ oracle2 : Nat → Option Nat, oracle2 i = none → pos < data.length →
      streamtest_fill_buffer oracle2 i data pos n = (none, pos)) ∧
    (∀ m : Nat,
      (data.drop pos).take n ++ (data.drop (pos + min n (data.length - pos))).take m =
        (data.drop pos).take (min n (data.length - pos) + m)) := by
  refine ⟨streamtest_fill_buffer_eq_slice oracle hok n i pos data, ?_, ?_, ?_, ?_⟩
  · rw [List.length_take, List.length_drop]
  · intro hend
    rw [streamtest_fill_buffer_eq_slice oracle hok n i pos data,
      List.drop_eq_nil_of_le hend]
    rw [List.take_nil, Nat.sub_eq_zero_of_le hend, Nat.min_zero, Nat.add_zero]
  · intro oracle2 h2 hlt
    exact streamtest_fill_buffer_first_read_fails oracle2 data i pos n h2 (by omega) hlt
  · intro m
    exact take_slice_concat data pos n m

/-- Witness instantiation for claim C3: reading 3 bytes at offset 1 of a
5-byte file. -/
theorem streamtest_fill_buffer_no_short_reads_witness :
    streamtest_fill_buffer (fun _ => some 7) 0 [10, 20, 30, 40, 50] 1 3 =
      (some (([10, 20, 30, 40, 50].drop 1).take 3),
        1 + min 3 ([10, 20, 30, 40, 50].length - 1)) :=
  (streamtest_fill_buffer_no_short_reads (fun _ => some 7) [10, 20, 30, 40, 50] 0 1 3
    (by decide) (fun j h => Option.noConfusion h)).1

/-- Claim C5: a tick executed while paused performs no read and no blob
send — the resulting state (including the file offset) is exactly the input
state, no blob instruction is emitted, the tick is independent of the read
oracle, and after space toggles pause back off the offset from which the next
read starts is exactly the offset held when pause began.  (The hypothesis
`639 ≤ file_size` excludes the progress render's division by zero, see C2.) -/
theorem streamtest_paused_tick_no_consume (oracle : Nat → Option Nat) (data : List Nat)
    (elapsed : Nat) (s : streamtest_state) (hp : s.paused = true) (hfs : 639 ≤ s.file_size) :
    ∃ r, streamtest_client_message_handler oracle data elapsed s = some r ∧
      r.state = s ∧ r.ret = 0 ∧
      (∀ off sz, GuacInstr.blob off sz ∉ r.instrs) ∧
      (∀ oracle2 : Nat → Option Nat,
        streamtest_client_message_handler oracle2 data elapsed s =
          streamtest_client_message_handler oracle data elapsed s) ∧
      (streamtest_client_key_handler s 0x20 1).1.paused = false ∧
      (streamtest_client_key_handler s 0x20 1).1.fd_pos = s.fd_pos := by
  have hrend := streamtest_render_progress_of_le s.fd_pos s.file_size s.paused hfs
  refine ⟨⟨s, [GuacInstr.rect 0 0 STREAMTEST_PROGRESS_WIDTH STREAMTEST_PROGRESS_HEIGHT,
      GuacInstr.cfill 0x40 0x40 0x40 0xFF,
      GuacInstr.rect 0 0 ((s.fd_pos + 1) / ((s.file_size + 1) / STREAMTEST_PROGRESS_WIDTH))
        STREAMTEST_PROGRESS_HEIGHT,
      if s.paused then GuacInstr.cfill 0x80 0x80 0x00 0xFF
      else GuacInstr.cfill 0x00 0x80 0x00 0xFF], false,
      if elapsed < s.frame_duration then s.frame_duration - elapsed else 0, 0⟩,
    ?_, rfl, rfl, ?_, ?_, ?_, ?_⟩
  · rw [hp] at hrend
    unfold streamtest_client_message_handler
    rw [hp, if_pos rfl, hrend]
  · intro off sz hmem
    rw [hp] at hmem
    simp at hmem
  · intro oracle2
    unfold streamtest_client_message_handler
    rw [hp]
    rfl
  · rw [streamtest_client_key_handler, if_pos ⟨by omega, rfl⟩, hp]
    rfl
  · rw [streamtest_client_key_handler, if_pos ⟨by omega, rfl⟩]

/-- Claim C6: a tick whose read returns 0 (end-of-file, no data) calls
`guac_client_stop` and returns success (0) — end-of-stream is not an error —
while a tick whose read fails returns failure (1) without stopping via
`guac_client_stop`, so the session is torn down by the host; the underlying
OS error is surfaced through errno by the failing `read` (the C code logs it
via `strerror`). -/
theorem streamtest_tick_eof_and_error (oracle : Nat → Option Nat) (data : List Nat)
    (elapsed : Nat) (s : streamtest_state) (hp : s.paused = false)
    (hfb : 0 < s.frame_bytes) (hfs : 639 ≤ s.file_size) :
    ((∀ j, oracle j ≠ none) → data.length ≤ s.fd_pos →
      ∃ r, streamtest_client_message_handler oracle data elapsed s = some r ∧
        r.stopped = true ∧ r.ret = 0 ∧ r.state.fd_pos = s.fd_pos) ∧
    (oracle 0 = none → s.fd_pos < data.length →
      ∃ r, streamtest_client_message_handler oracle data elapsed s = some r ∧
        r.ret = 1 ∧ r.stopped = false) := by
  constructor
  · intro hok hend
    have hfill := streamtest_fill_buffer_eq_slice oracle hok s.frame_bytes 0 s.fd_pos data
    rw [List.drop_eq_nil_of_le hend, List.take_nil, Nat.sub_eq_zero_of_le hend,
      Nat.min_zero, Nat.add_zero] at hfill
    have hrend := streamtest_render_progress_of_le s.fd_pos s.file_size s.paused hfs
    rw [hp] at hrend
    unfold streamtest_client_message_handler
    rw [hp, if_neg (by decide), hfill]
    dsimp only
    rw [hrend]
    exact ⟨_, rfl, rfl, rfl, rfl⟩
  · intro hfail hlt
    have hfill := streamtest_fill_buffer_first_read_fails oracle data 0 s.fd_pos
      s.frame_bytes hfail (by omega) hlt
    unfold streamtest_client_message_handler
    rw [hp, if_neg (by decide), hfill]
    exact ⟨_, rfl, rfl, rfl⟩

/-- Claim C8: after the tick's work, with `elapsed` microseconds measured
since the tick's start, a successful tick sleeps exactly
`frame_duration - elapsed` when the frame finished early and does not sleep
at all when it overran its budget; overrunning never turns success into an
error (any elapsed value yields a successful tick with the same outcome). -/
theorem streamtest_tick_frame_pacing (oracle : Nat → Option Nat) (data : List Nat)
    (elapsed : Nat) (s : streamtest_state) (r : TickResult)
    (h : streamtest_client_message_handler oracle data elapsed s = some r) (hr : r.ret = 0) :
    (elapsed < s.frame_duration → r.sleep_usecs = s.frame_duration - elapsed) ∧
    (s.frame_duration ≤ elapsed → r.sleep_usecs = 0) ∧
    (∀ e2 : Nat, ∃ r2 : TickResult,
      streamtest_client_message_handler oracle data e2 s = some r2 ∧ r2.ret = 0 ∧
        (s.frame_duration ≤ e2 → r2.sleep_usecs = 0)) := by
  unfold streamtest_client_message_handler at h
  by_cases hpaused : s.paused = true
  · rw [hpaused, if_pos rfl] at h
    cases hrend : streamtest_render_progress s.fd_pos s.file_size true with
    | none => rw [hrend] at h; exact Option.noConfusion h
    | some L =>
      rw [hrend] at h
      dsimp only at h
      injection h with h'
      subst h'
      refine ⟨fun he => ?_, fun he => ?_, fun e2 => ?_⟩
      · dsimp only
        rw [if_pos he]
      · dsimp only
        rw [if_neg (not_lt.mpr he)]
      · refine ⟨⟨s, L, false,
          if e2 < s.frame_duration then s.frame_duration - e2 else 0, 0⟩, ?_, rfl, ?_⟩
        · unfold streamtest_client_message_handler
          rw [hpaused, if_pos rfl, hrend]
        · intro he
          dsimp only
          rw [if_neg (not_lt.mpr he)]
  · rw [Bool.not_eq_true] at hpaused
    rw [hpaused, if_neg (by decide)] at h
    cases hfill : streamtest_fill_buffer oracle 0 data s.fd_pos s.frame_bytes with
    | mk ob p =>
      rw [hfill] at h
      cases ob with
      | none =>
        dsimp only at h
        injection h with h'
        rw [← h'] at hr
        dsimp only at hr
        exact absurd hr (by decide)
      | some bytes =>
        dsimp only at h
        cases hrend : streamtest_render_progress p s.file_size false with
        | none => rw [hrend] at h; exact Option.noConfusion h
        | some L =>
          rw [hrend] at h
          dsimp only at h
          injection h with h'
          subst h'
          refine ⟨fun he => ?_, fun he => ?_, fun e2 => ?_⟩
          · dsimp only
            rw [if_pos he]
          · dsimp only
            rw [if_neg (not_lt.mpr he)]
          · refine ⟨⟨{ s with fd_pos := p },
              (if 0 < bytes.length then
                (streamtest_write_blobs 0 bytes.length).map (fun c => GuacInstr.blob c.1 c.2)
              else []) ++ L, bytes.isEmpty,
              if e2 < s.frame_duration then s.frame_duration - e2 else 0, 0⟩, ?_, rfl, ?_⟩
            · unfold streamtest_client_message_handler
              rw [hpaused, if_neg (by decide), hfill]
              dsimp only
              rw [hrend]
            · intro he
              dsimp only
              rw [if_neg (not_lt.mpr he)]

/-- Claim C1, counterexample: at position 500 of a 1000-byte file the code
emits a fill rectangle 501 pixels wide, whereas the claimed formula
`(bytes_consumed+1)*WIDTH/(total_bytes+1)` clamped to WIDTH
(`spec_progress_fill_width`) gives 320 — the claim is false on the code. -/
theorem streamtest_progress_width_not_spec_formula :
    streamtest_render_progress 500 1000 false =
      some [GuacInstr.rect 0 0 640 32, GuacInstr.cfill 0x40 0x40 0x40 0xFF,
            GuacInstr.rect 0 0 501 32, GuacInstr.cfill 0x00 0x80 0x00 0xFF] ∧
    spec_progress_fill_width 500 1000 = 320 ∧ (501 : Nat) ≠ 320 := by decide

/-- Claim C1, amended: the fill rectangle emitted by the progress render is
`(bytes_consumed+1) / ((total_bytes+1) / 640)` pixels wide (truncating
integer division, not clamped to the 640-pixel width, and well-defined only
for `total_bytes ≥ 639` — smaller sizes divide by zero), and is coloured
amber (0x80,0x80,0x00) when paused and green (0x00,0x80,0x00) when not
paused. -/
theorem streamtest_render_progress_code_formula (position file_size : Nat) (paused : Bool)
    (h : 639 ≤ file_size) :
    streamtest_render_progress position file_size paused =
      some [GuacInstr.rect 0 0 STREAMTEST_PROGRESS_WIDTH STREAMTEST_PROGRESS_HEIGHT,
            GuacInstr.cfill 0x40 0x40 0x40 0xFF,
            GuacInstr.rect 0 0 ((position + 1) / ((file_size + 1) / STREAMTEST_PROGRESS_WIDTH))
              STREAMTEST_PROGRESS_HEIGHT,
            if paused then GuacInstr.cfill 0x80 0x80 0x00 0xFF
            else GuacInstr.cfill 0x00 0x80 0x00 0xFF] :=
  streamtest_render_progress_of_le position file_size paused h

/-- Witness instantiation for claim C1 (amended) at position 1000 of a
1279-byte file, paused. -/
theorem streamtest_render_progress_code_formula_witness :
    streamtest_render_progress 1000 1279 true =
      some [GuacInstr.rect 0 0 STREAMTEST_PROGRESS_WIDTH STREAMTEST_PROGRESS_HEIGHT,
            GuacInstr.cfill 0x40 0x40 0x40 0xFF,
            GuacInstr.rect 0 0 ((1000 + 1) / ((1279 + 1) / STREAMTEST_PROGRESS_WIDTH))
              STREAMTEST_PROGRESS_HEIGHT,
            if true then GuacInstr.cfill 0x80 0x80 0x00 0xFF
            else GuacInstr.cfill 0x00 0x80 0x00 0xFF] :=
  streamtest_render_progress_code_formula 1000 1279 true (by decide)

/-- Claim C2 (code bug): the progress-width computation divides by zero for
every file smaller than 639 bytes (the divisor `(file_size+1)/640` is 0, so
the C expression at client.c:319 is undefined behaviour — a SIGFPE crash on
common targets), and even where defined the width is 0, not strictly
positive, at the start of any file of 1279 bytes or more; the spec's claim
that the `+1` bias makes the division total and the width positive does not
hold for the code's rearranged expression. -/
theorem streamtest_progress_width_div_by_zero :
    streamtest_progress_width 0 0 = none ∧
    streamtest_progress_width 500 638 = none ∧
    streamtest_progress_width 0 1279 = some 0 := by decide

/-- Claim C7, counterexample: with the correct argument count but an
unsupported mimetype (video is compiled out), `guac_client_init` returns the
fatal error 1 — but only after `guac_client_alloc_stream` has already
allocated a stream, contradicting the claim that it aborts before any
session state is allocated. -/
theorem guac_client_init_stream_leak_on_bad_mimetype :
    guac_client_init 4 ['v', 'i', 'd', 'e', 'o', '/', 'm', 'p', '4'] true (some 10000) =
      some ⟨1, true, false, false, false, []⟩ := by decide

/-- Claim C7, amended: a wrong argument count makes `guac_client_init`
return the fatal error 1 before anything is allocated or registered; an
unsupported mimetype (with correct argument count) also returns 1 before the
state structure or frame buffer is allocated and before any handler is
registered, but after a stream has already been allocated. -/
theorem guac_client_init_abort_points (argc : Nat) (mimetype : List Char)
    (open_ok : Bool) (fstat_size : Option Nat) :
    (argc ≠ 4 → guac_client_init argc mimetype open_ok fstat_size =
      some ⟨1, false, false, false, false, []⟩) ∧
    (argc = 4 → mimetype.take 6 ≠ ['a', 'u', 'd', 'i', 'o', '/'] →
      guac_client_init argc mimetype open_ok fstat_size =
        some ⟨1, true, false, false, false, []⟩) := by
  constructor
  · intro hargc
    unfold guac_client_init
    rw [if_pos hargc]
  · intro hargc hmime
    unfold guac_client_init
    rw [if_neg (by omega : ¬argc ≠ 4), if_neg hmime]

/-- Witness instantiation for claim C7 (amended): wrong argument count (3),
and an unsupported mimetype with correct count. -/
theorem guac_client_init_abort_points_witness :
    guac_client_init 3 ['a', 'u', 'd', 'i', 'o', '/'] true (some 10000) =
      some ⟨1, false, false, false, false, []⟩ ∧
    guac_client_init 4 ['t', 'e', 'x', 't', '/', 'x'] true (some 10000) =
      some ⟨1, true, false, false, false, []⟩ :=
  ⟨(guac_client_init_abort_points 3 ['a', 'u', 'd', 'i', 'o', '/'] true (some 10000)).1
      (by decide),
   (guac_client_init_abort_points 4 ['t', 'e', 'x', 't', '/', 'x'] true (some 10000)).2
      rfl (by decide)⟩

/-- Claim C9 (code bug): `streamtest_utime` truncates the microsecond count
to a 32-bit `int`, so it wraps every 2^32 microseconds (about 71.6 minutes)
regardless of starting point: for the two successive clock readings
2147.483647s and 2147.483648s (one microsecond apart, monotone), the second
returned timestamp is smaller than the first — the returned value is not
monotonically non-decreasing within one process run.  (The code additionally
reads `CLOCK_REALTIME`, which the OS may step backwards.) -/
theorem streamtest_utime_not_monotonic :
    streamtest_utime 2147 483647000 = 2147483647 ∧
    streamtest_utime 2147 483648000 = -2147483648 ∧
    streamtest_utime 2147 483648000 < streamtest_utime 2147 483647000 := by decide

/-- Claim C10: the key handler always returns 0; the paused flag is toggled
exactly when the event is a press (`pressed ≠ 0`) of the space key (keysym
0x20) and is unchanged otherwise; every other field of the playback state is
unchanged by every key event, and a release or a press of any other key
leaves the entire state unchanged. -/
theorem streamtest_key_handler_toggle_iff (s : streamtest_state) (keysym pressed : Int) :
    (streamtest_client_key_handler s keysym pressed).2 = 0 ∧
    ((streamtest_client_key_handler s keysym pressed).1.paused =
      if pressed ≠ 0 ∧ keysym = 0x20 then !s.paused else s.paused) ∧
    (streamtest_client_key_handler s keysym pressed).1.mode = s.mode ∧
    (streamtest_client_key_handler s keysym pressed).1.frame_duration = s.frame_duration ∧
    (streamtest_client_key_handler s keysym pressed).1.frame_bytes = s.frame_bytes ∧
    (streamtest_client_key_handler s keysym pressed).1.fd_pos = s.fd_pos ∧
    (streamtest_client_key_handler s keysym pressed).1.file_size = s.file_size ∧
    ((pressed = 0 ∨ keysym ≠ 0x20) →
      (streamtest_client_key_handler s keysym pressed).1 = s) := by
  unfold streamtest_client_key_handler
  by_cases hc : pressed ≠ 0 ∧ keysym = 0x20
  · rw [if_pos hc, if_pos hc]
    refine ⟨rfl, rfl, rfl, rfl, rfl, rfl, rfl, ?_⟩
    intro hor
    rcases hor with h0 | hk
    · exact absurd h0 hc.1
    · exact absurd hc.2 hk
  · rw [if_neg hc, if_neg hc]
    exact ⟨rfl, rfl, rfl, rfl, rfl, rfl, rfl, fun _ => rfl⟩

/-- Witness instantiation for claim C10: pressing the A key (keysym 65)
leaves the state unchanged. -/
theorem streamtest_key_handler_toggle_iff_witness :
    (streamtest_client_key_handler
      ⟨streamtest_playback_mode.STREAMTEST_AUDIO, 10000, 4, 2, 1000, false⟩ 65 1).1 =
      ⟨streamtest_playback_mode.STREAMTEST_AUDIO, 10000, 4, 2, 1000, false⟩ :=
  (streamtest_key_handler_toggle_iff
    ⟨streamtest_playback_mode.STREAMTEST_AUDIO, 10000, 4, 2, 1000, false⟩ 65 1).2.2.2.2.2.2.2
    (Or.inr (by decide))

/-- Witness instantiation for claim C5: a paused tick over a 1000-byte file
at offset 2 succeeds and leaves the state unchanged. -/
theorem streamtest_paused_tick_no_consume_witness :
    ∃ r, streamtest_client_message_handler (fun _ => some 7) [10, 20, 30] 3000
        ⟨streamtest_playback_mode.STREAMTEST_AUDIO, 10000, 4, 2, 1000, true⟩ = some r ∧
      r.state = ⟨streamtest_playback_mode.STREAMTEST_AUDIO, 10000, 4, 2, 1000, true⟩ ∧
      r.ret = 0 := by
  obtain ⟨r, h1, h2, h3, -⟩ := streamtest_paused_tick_no_consume (fun _ => some 7)
    [10, 20, 30] 3000 ⟨streamtest_playback_mode.STREAMTEST_AUDIO, 10000, 4, 2, 1000, true⟩
    rfl (by decide)
  exact ⟨r, h1, h2, h3⟩

/-- Witness instantiation for claim C6: a tick at end-of-data stops the
client and reports success; a tick whose first read fails reports failure. -/
theorem streamtest_tick_eof_and_error_witness :
    (∃ r, streamtest_client_message_handler (fun _ => some 7) [10, 20] 3000
        ⟨streamtest_playback_mode.STREAMTEST_AUDIO, 10000, 4, 2, 639, false⟩ = some r ∧
      r.stopped = true ∧ r.ret = 0 ∧
      r.state.fd_pos =
        (⟨streamtest_playback_mode.STREAMTEST_AUDIO, 10000, 4, 2, 639, false⟩ :
          streamtest_state).fd_pos) ∧
    (∃ r, streamtest_client_message_handler (fun _ => none) [10, 20] 3000
        ⟨streamtest_playback_mode.STREAMTEST_AUDIO, 10000, 4, 0, 639, false⟩ = some r ∧
      r.ret = 1 ∧ r.stopped = false) :=
  ⟨(streamtest_tick_eof_and_error (fun _ => some 7) [10, 20] 3000
      ⟨streamtest_playback_mode.STREAMTEST_AUDIO, 10000, 4, 2, 639, false⟩
      rfl (by decide) (by decide)).1 (fun j h => Option.noConfusion h) (by decide),
   (streamtest_tick_eof_and_error (fun _ => none) [10, 20] 3000
      ⟨streamtest_playback_mode.STREAMTEST_AUDIO, 10000, 4, 0, 639, false⟩
      rfl (by decide) (by decide)).2 rfl (by decide)⟩

/-- Witness instantiation for claim C8: work of 3000us under a 10000us frame
budget sleeps exactly 7000us. -/
theorem streamtest_tick_frame_pacing_witness :
    (⟨⟨streamtest_playback_mode.STREAMTEST_AUDIO, 10000, 4, 0, 639, true⟩,
      [GuacInstr.rect 0 0 640 32, GuacInstr.cfill 0x40 0x40 0x40 0xFF,
       GuacInstr.rect 0 0 1 32, GuacInstr.cfill 0x80 0x80 0x00 0xFF],
      false, 7000, 0⟩ : TickResult).sleep_usecs = 10000 - 3000 :=
  (streamtest_tick_frame_pacing (fun _ => some 7) [] 3000
    ⟨streamtest_playback_mode.STREAMTEST_AUDIO, 10000, 4, 0, 639, true⟩
    ⟨⟨streamtest_playback_mode.STREAMTEST_AUDIO, 10000, 4, 0, 639, true⟩,
      [GuacInstr.rect 0 0 640 32, GuacInstr.cfill 0x40 0x40 0x40 0xFF,
       GuacInstr.rect 0 0 1 32, GuacInstr.cfill 0x80 0x80 0x00 0xFF],
      false, 7000, 0⟩ (by decide) (by decide)).1 (by decide)
